import Mathlib

/-!
Verification of `procesar_actas.py`: a bounded-concurrency batch downloader
that reads polling-station ("mesa") codes from a CSV, fetches each mesa's
record from a remote API, extracts the base64-encoded "ACTA" attachment and
persists it as `{code}.jpg` in an output directory.

The Python script is embedded shallowly:
* pure data transformations become Lean functions;
* the network and the filesystem are explicit inputs (a `NetEvent` per
  request, the directory listing as a `List String`);
* Python exceptions that escape a function become `Except` results, while
  exceptions caught inside a function are modelled by the value the handler
  returns;
* `random.shuffle` is an arbitrary permutation-producing parameter;
* the asyncio semaphore discipline of `main` becomes a small labelled
  transition system over per-task phases.
-/

namespace ProcesarActas

/-- One attachment entry of the JSON response: `{"tipo": ..., "valor": ...}`.
Both fields are read with `dict.get`, hence optional. -/
structure Adjunto where
  tipo : Option String
  valor : Option String
deriving DecidableEq, Repr

/-- The parsed JSON body of a successful fetch; `data.get("adjunto", [])`
defaults a missing list to `[]`, so we model the list directly. -/
structure MesaData where
  adjunto : List Adjunto
deriving DecidableEq, Repr

/-- One row of `resultados.csv`, restricted to the columns the script reads. -/
structure Row where
  descripcion : String
  codigoMesa : Int
deriving DecidableEq, Repr

/-- Exceptions that escape `load_mesa_codes_from_csv`:
`pd.read_csv` failures and the `ValueError` raised by
`int(filename.split(".")[0])` on a non-numeric filename prefix. -/
inductive LoadError where
  | datasetUnreadable
  | valueError
deriving DecidableEq, Repr

/-- Decimal value of a digit string, most significant digit first. -/
def digitsToNat (cs : List Char) : Nat :=
  cs.foldl (fun n c => n * 10 + (c.toNat - '0'.toNat)) 0

/-- Python `int(s)` on the relevant inputs: an optional leading `-` followed
by at least one decimal digit parses; anything else raises `ValueError`
(modelled as `none`). -/
def pyInt (s : String) : Option Int :=
  match s.data with
  | [] => none
  | '-' :: rest =>
      if rest ≠ [] ∧ rest.all Char.isDigit then
        some (-(Int.ofNat (digitsToNat rest)))
      else none
  | cs =>
      if cs.all Char.isDigit then some (Int.ofNat (digitsToNat cs))
      else none

/-- `filename.split(".")[0]` followed by `int(...)`: the portion of the
filename before the first `.` separator, parsed as an integer. -/
def parseFilename (filename : String) : Option Int :=
  pyInt ⟨filename.data.takeWhile (fun c => c ≠ '.')⟩

/-- The set comprehension `{int(f.split(".")[0]) for f in os.listdir(OUTPUT_DIR)}`:
parses every filename in the directory listing; one failure raises. -/
def parseDownloaded (dir : List String) : Option (List Int) :=
  dir.mapM parseFilename

/-- `load_mesa_codes_from_csv`.  Inputs: the CSV read result (`pd.read_csv`
raises if the file is unreadable), the output-directory listing, and the
permutation `random.shuffle` applies.  Filters rows with
`Descripcion == "PRESIDENTE"`, projects `CodigoMesa`, removes codes whose
filename already appears in the directory, and shuffles. -/
def load_mesa_codes_from_csv (csv : Except Unit (List Row)) (dir : List String)
    (shuffle : List Int → List Int) : Except LoadError (List Int) :=
  match csv with
  | .error _ => .error .datasetUnreadable
  | .ok rows =>
      match parseDownloaded dir with
      | none => .error .valueError
      | some downloaded =>
          let mesa_codes := (rows.filter (fun r => r.descripcion = "PRESIDENTE")).map
            (fun r => r.codigoMesa)
          .ok (shuffle (mesa_codes.filter (fun code => code ∉ downloaded)))

/-- The identifiers that survive the filter before shuffling: rows in the
target category, minus already-downloaded codes. -/
def pendingBeforeShuffle (rows : List Row) (downloaded : List Int) : List Int :=
  ((rows.filter (fun r => r.descripcion = "PRESIDENTE")).map (fun r => r.codigoMesa)).filter
    (fun code => code ∉ downloaded)

/-! ## Remote fetcher -/

/-- What the network does for one request: either an HTTP response arrives
(`body = none` when `response.json()` raises inside the `try`), or a
transport-level exception (timeout, connection reset, DNS failure) is
raised. -/
inductive NetEvent where
  | response (status : Nat) (body : Option MesaData)
  | transportError
deriving DecidableEq, Repr

/-- `fetch_mesa_data`: returns the parsed JSON on status 200, prints and
returns `None` on any other status, and the `except Exception` handler turns
every raised exception (transport fault or JSON parse failure) into `None`.
Total as a Lean function: no exception escapes. -/
def fetch_mesa_data (ev : NetEvent) : Option MesaData :=
  match ev with
  | .response status body => if status = 200 then body else none
  | .transportError => none

/-! ## Base64 decoding and the persister -/

/-- Value of one character of the standard base64 alphabet
(`A-Z` ↦ 0–25, `a-z` ↦ 26–51, `0-9` ↦ 52–61, `+` ↦ 62, `/` ↦ 63). -/
def b64charValue (c : Char) : Option Nat :=
  if 'A' ≤ c ∧ c ≤ 'Z' then some (c.toNat - 'A'.toNat)
  else if 'a' ≤ c ∧ c ≤ 'z' then some (c.toNat - 'a'.toNat + 26)
  else if '0' ≤ c ∧ c ≤ '9' then some (c.toNat - '0'.toNat + 52)
  else if c = '+' then some 62
  else if c = '/' then some 63
  else none

/-- Decodes base64 quadruples into bytes.  A final `xx==` group yields one
byte, `xxx=` two bytes, a full group three; any other shape raises
(`binascii.Error`, modelled as `none`). -/
def b64decodeGroups : List Char → Option (List Nat)
  | [] => some []
  | a :: b :: c :: d :: rest => do
      let va ← b64charValue a
      let vb ← b64charValue b
      if c = '=' ∧ d = '=' ∧ rest = [] then
        pure [va * 4 + vb / 16]
      else do
        let vc ← b64charValue c
        if d = '=' ∧ rest = [] then
          pure [va * 4 + vb / 16, (vb % 16) * 16 + vc / 4]
        else do
          let vd ← b64charValue d
          let tail ← b64decodeGroups rest
          pure ([va * 4 + vb / 16, (vb % 16) * 16 + vc / 4, (vc % 4) * 64 + vd] ++ tail)
  | _ => none

/-- Python `base64.b64decode` (default non-validating mode): characters
outside the alphabet and `=` are discarded, then quadruples are decoded. -/
def b64decode (s : String) : Option (List Nat) :=
  b64decodeGroups (s.data.filter (fun c => (b64charValue c).isSome || c = '='))

/-- The deterministic output filename `f"{codigo_mesa}.jpg"`. -/
def actaFilename (codigo_mesa : Int) : String :=
  toString codigo_mesa ++ ".jpg"

/-- `save_acta_image`: decodes the base64 payload and writes the bytes to
`OUTPUT_DIR/{codigo}.jpg`.  The `except` handler converts a decode error
into `False`; modelled result is the written `(filename, bytes)` pair on
success, `none` (returned `False`, nothing written) on failure. -/
def save_acta_image (codigo_mesa : Int) (base64_data : String) :
    Option (String × List Nat) :=
  match b64decode base64_data with
  | none => none
  | some image_data => some (actaFilename codigo_mesa, image_data)

/-! ## Per-mesa pipeline -/

/-- `next((adj for adj in adjuntos if adj.get("tipo") == "ACTA"), None)`. -/
def findActa (adjuntos : List Adjunto) : Option Adjunto :=
  adjuntos.find? (fun adj => adj.tipo = some "ACTA")

/-- `process_mesa`: fetch, locate the first `ACTA` attachment, read its
`valor` (`if not base64_data` rejects both a missing and an empty string),
then save.  Result: `some (filename, bytes)` when the function returns
`True` having written the file, `none` when it returns `False`. -/
def process_mesa (ev : NetEvent) (codigo_mesa : Int) : Option (String × List Nat) :=
  match fetch_mesa_data ev with
  | none => none
  | some data =>
      match findActa data.adjunto with
      | none => none
      | some acta_adjunto =>
          match acta_adjunto.valor with
          | none => none
          | some base64_data =>
              if base64_data = "" then none
              else save_acta_image codigo_mesa base64_data

/-! ## Coordinator: `main` -/

/-- What `asyncio.gather(..., return_exceptions=True)` yields for one task:
the boolean the pipeline returned, or the exception object that escaped it,
captured as a value instead of propagating. -/
inductive TaskResult where
  | ok (success : Bool)
  | exc
deriving DecidableEq, Repr

/-- The batch dispatch: one `process_with_semaphore` task per code, results
collected in dispatch order by `asyncio.gather` with `return_exceptions=True`. -/
def runBatch (pipeline : Int → TaskResult) (mesa_codes : List Int) : List TaskResult :=
  mesa_codes.map pipeline

/-- `sum(1 for r in results if r is True and not isinstance(r, Exception))`. -/
def success_count (results : List TaskResult) : Nat :=
  results.countP (fun r => r = .ok true)

/-- Observable outcome of `main`: an uncaught startup exception aborts the
run; an empty pending list returns early before any dispatch; otherwise the
batch is dispatched and the final line reports `succeeded/attempted`. -/
inductive RunOutcome where
  | aborted (e : LoadError)
  | nothingToDo
  | dispatched (mesa_codes : List Int) (attempted succeeded : Nat)
deriving DecidableEq, Repr

/-- `main`: load the pending codes (exceptions from the load propagate and
abort the run), return early on an empty list (`if not mesa_codes`),
otherwise gather all pipelines and report
`{success_count}/{len(mesa_codes)}`. -/
def main (csv : Except Unit (List Row)) (dir : List String)
    (shuffle : List Int → List Int) (pipeline : Int → TaskResult) : RunOutcome :=
  match load_mesa_codes_from_csv csv dir shuffle with
  | .error e => .aborted e
  | .ok [] => .nothingToDo
  | .ok mesa_codes =>
      .dispatched mesa_codes mesa_codes.length
        (success_count (runBatch pipeline mesa_codes))

/-! ## Semaphore discipline of `process_with_semaphore`

`main` creates `asyncio.Semaphore(10)` and each task runs
`async with semaphore: result = await process_mesa(...); await asyncio.sleep(0.5); return result`.
We model each task's progress through that block as a phase, and the
scheduler as a step relation: a task may enter the block only while fewer
than 10 tasks hold the semaphore, and it releases the slot only after the
post-pipeline pause. -/

/-- `asyncio.Semaphore(10)`. -/
def semaphore_limit : Nat := 10

/-- `asyncio.sleep(0.5)`: the pause each task takes after its pipeline,
still inside the `async with` block. -/
def request_delay : ℚ := 1 / 2

/-- Phase of one task relative to the semaphore block: not yet admitted,
running the fetch/extract/persist pipeline, pausing after the pipeline, or
finished (slot released). -/
inductive Phase where
  | pending
  | working
  | sleeping
  | done
deriving DecidableEq, Repr

/-- A task holds a semaphore slot from admission until the end of the
`async with` block, i.e. through both the pipeline and the pause. -/
def holdsSlot : Phase → Bool
  | .working => true
  | .sleeping => true
  | _ => false

/-- A task is in the active fetch/extract/persist phase. -/
def isActive : Phase → Bool
  | .working => true
  | _ => false

/-- The scheduler state: the phase of every task of the batch. -/
abbrev SemState := List Phase

/-- Number of tasks currently holding a semaphore slot. -/
def holders (s : SemState) : Nat := s.countP holdsSlot

/-- One scheduler step.  `acquire` admits a pending task only when a slot is
free; `finish` ends the pipeline and starts the `sleep(0.5)` pause without
releasing the slot; `release` leaves the `async with` block after the
pause. -/
inductive SemStep : SemState → SemState → Prop where
  | acquire (s : SemState) (i : Nat) :
      s[i]? = some .pending → holders s < semaphore_limit →
      SemStep s (s.set i .working)
  | finish (s : SemState) (i : Nat) :
      s[i]? = some .working →
      SemStep s (s.set i .sleeping)
  | release (s : SemState) (i : Nat) :
      s[i]? = some .sleeping →
      SemStep s (s.set i .done)

/-- States reachable from the initial batch (all `n` tasks pending). -/
inductive SemReachable : SemState → Prop where
  | init (n : Nat) : SemReachable (List.replicate n .pending)
  | step {s t : SemState} : SemReachable s → SemStep s t → SemReachable t

end ProcesarActas

deriving instance DecidableEq for Except

namespace ProcesarActas

/-! ## Helper lemmas -/

/-- A filename in a successfully scanned directory contributes its parsed
code to the downloaded set. -/
theorem mem_parseDownloaded :
    ∀ (dir : List String) (downloaded : List Int) (f : String) (v : Int),
      parseDownloaded dir = some downloaded → f ∈ dir →
      parseFilename f = some v → v ∈ downloaded := by
  intro dir
  induction dir with
  | nil => intro downloaded f v _ hf; cases hf
  | cons a dir ih =>
      intro downloaded f v h hf hv
      rw [parseDownloaded, List.mapM_cons] at h
      cases ha : parseFilename a with
      | none => rw [ha] at h; simp at h
      | some x =>
          rw [ha] at h
          cases hd : dir.mapM parseFilename with
          | none => rw [hd] at h; simp at h
          | some xs =>
              rw [hd] at h
              simp at h
              rcases List.mem_cons.mp hf with rfl | hmem
              · rw [ha] at hv
                have hvx : v = x := by injection hv with h2; exact h2.symm
                rw [← h, hvx]
                exact List.mem_cons_self x xs
              · rw [← h]
                exact List.mem_cons_of_mem x (ih xs f v hd hmem hv)

/-- One unparseable filename makes the whole directory scan raise. -/
theorem parseDownloaded_eq_none :
    ∀ (dir : List String) (f : String), f ∈ dir → parseFilename f = none →
      parseDownloaded dir = none := by
  intro dir
  induction dir with
  | nil => intro f hf; cases hf
  | cons a dir ih =>
      intro f hf hn
      rw [parseDownloaded, List.mapM_cons]
      rcases List.mem_cons.mp hf with rfl | hmem
      · rw [hn]; rfl
      · cases ha : parseFilename a with
        | none => rfl
        | some x =>
            have ihm : dir.mapM parseFilename = none := ih f hmem hn
            rw [ihm]
            rfl

/-- `find?` picks the marked element when everything before it fails the
predicate. -/
theorem find?_append_first {α} (p : α → Bool) :
    ∀ (pre : List α) (a : α) (post : List α),
      (∀ x ∈ pre, p x = false) → p a = true →
      (pre ++ a :: post).find? p = some a := by
  intro pre
  induction pre with
  | nil => intro a post _ ha; simp [List.find?_cons, ha]
  | cons b pre ih =>
      intro a post hpre ha
      have hb : p b = false := hpre b (List.mem_cons_self b pre)
      simp only [List.cons_append, List.find?_cons, hb]
      exact ih a post (fun x hx => hpre x (List.mem_cons_of_mem b hx)) ha

/-- Effect of writing one position on a `countP`. -/
theorem countP_set_aux {α} (f : α → Bool) :
    ∀ (l : List α) (i : Nat) (a b : α), l[i]? = some a →
      (l.set i b).countP f + (if f a then 1 else 0) =
        l.countP f + (if f b then 1 else 0) := by
  intro l
  induction l with
  | nil => intro i a b h; simp at h
  | cons x xs ih =>
      intro i a b h
      cases i with
      | zero =>
          simp only [List.getElem?_cons_zero, Option.some.injEq] at h
          subst h
          simp only [List.set_cons_zero, List.countP_cons]
          omega
      | succ n =>
          simp only [List.getElem?_cons_succ] at h
          simp only [List.set_cons_succ, List.countP_cons]
          have := ih n a b h
          omega

/-- No scheduler step ever admits a task beyond the semaphore limit: in any
reachable state at most `semaphore_limit` tasks hold a slot. -/
theorem holders_le_of_reachable :
    ∀ s : SemState, SemReachable s → holders s ≤ semaphore_limit := by
  intro s h
  induction h with
  | init n =>
      have h0 : holders (List.replicate n Phase.pending) = 0 := by
        rw [holders]
        rw [List.countP_eq_zero]
        intro a ha
        rw [List.eq_of_mem_replicate ha]
        simp [holdsSlot]
      omega
  | step _ hstep ih =>
      rename_i s t ih
      cases hstep with
      | acquire i hp hlt =>
          have hc := countP_set_aux holdsSlot s i Phase.pending Phase.working hp
          simp [holdsSlot] at hc
          rw [holders] at *
          omega
      | finish i hp =>
          have hc := countP_set_aux holdsSlot s i Phase.working Phase.sleeping hp
          simp [holdsSlot] at hc
          rw [holders] at *
          omega
      | release i hp =>
          have hc := countP_set_aux holdsSlot s i Phase.sleeping Phase.done hp
          simp [holdsSlot] at hc
          rw [holders] at *
          omega

/-! ## Claims -/

/-- C1: whenever the record source succeeds, every identifier whose persisted
file `{identifier}.jpg` is in the output directory is excluded from the
returned pending list; in particular, for the dataset whose only PRESIDENTE
row has CodigoMesa 1 and a directory containing `1.jpg`, it returns `[]`. -/
theorem c1_resumption_excludes_persisted :
    (∀ (rows : List Row) (dir : List String) (shuffle : List Int → List Int),
      (∀ l, (shuffle l).Perm l) →
      ∀ (code : Int) (l : List Int),
        load_mesa_codes_from_csv (.ok rows) dir shuffle = .ok l →
        actaFilename code ∈ dir →
        parseFilename (actaFilename code) = some code →
        code ∉ l) ∧
    (∀ shuffle : List Int → List Int, (∀ l, (shuffle l).Perm l) →
      load_mesa_codes_from_csv (.ok [⟨"PRESIDENTE", 1⟩]) ["1.jpg"] shuffle =
        .ok []) := by
  constructor
  · intro rows dir shuffle hs code l hload hfile hparse hmem
    cases hd : parseDownloaded dir with
    | none =>
        simp only [load_mesa_codes_from_csv, hd] at hload
        injection hload
    | some downloaded =>
        simp only [load_mesa_codes_from_csv, hd, Except.ok.injEq] at hload
        have hcode : code ∈ downloaded :=
          mem_parseDownloaded dir downloaded (actaFilename code) code hd hfile hparse
        rw [← hload] at hmem
        have hpend := (hs _).mem_iff.mp hmem
        have := (List.mem_filter.mp hpend).2
        simp at this
        exact this hcode
  · intro shuffle hs
    have hnil : shuffle [] = [] := (hs []).eq_nil
    show Except.ok (shuffle []) = Except.ok []
    rw [hnil]

/-- C1 witness: instantiated at the identity shuffle, identifier 1 and the
directory `["1.jpg"]`. -/
theorem c1_witness :
    load_mesa_codes_from_csv (.ok [⟨"PRESIDENTE", 1⟩]) ["1.jpg"] id = .ok [] ∧
    (1 : Int) ∉ ([] : List Int) :=
  ⟨c1_resumption_excludes_persisted.2 id (fun l => List.Perm.refl l),
   c1_resumption_excludes_persisted.1 [⟨"PRESIDENTE", 1⟩] ["1.jpg"] id
     (fun l => List.Perm.refl l) 1 [] (by decide) (by decide) (by decide)⟩

/-- C2: whenever the fetched body's attachment list splits as `pre ++ adj ::
post` with no `"ACTA"`-tagged entry in `pre` and `adj` tagged `"ACTA"`,
`process_mesa` selects `adj`, base64-decodes its `valor`, and writes exactly
the decoded bytes to `{identifier}.jpg`; in particular, with attachments
`[{tipo: OTHER, valor: "x"}, {tipo: ACTA, valor: "Zm9v"}]` the second entry
is selected and the written file holds the three bytes of `foo`. -/
theorem c2_extraction_and_persistence :
    (∀ (data : MesaData) (pre post : List Adjunto) (adj : Adjunto)
        (v : String) (bytes : List Nat) (codigo : Int),
      data.adjunto = pre ++ adj :: post →
      (∀ a ∈ pre, a.tipo ≠ some "ACTA") →
      adj.tipo = some "ACTA" →
      adj.valor = some v → v ≠ "" →
      b64decode v = some bytes →
      process_mesa (.response 200 (some data)) codigo =
        some (actaFilename codigo, bytes)) ∧
    process_mesa (.response 200 (some ⟨[⟨some "OTHER", some "x"⟩,
      ⟨some "ACTA", some "Zm9v"⟩]⟩)) 7 = some ("7.jpg", [102, 111, 111]) := by
  constructor
  · intro data pre post adj v bytes codigo hsplit hpre hadj hv hne hdec
    have hfind : findActa data.adjunto = some adj := by
      rw [findActa, hsplit]
      exact find?_append_first _ pre adj post
        (fun x hx => by simp [hpre x hx]) (by simp [hadj])
    simp only [process_mesa, fetch_mesa_data, if_pos rfl, if_true, hfind, hv,
      if_neg hne, save_acta_image, hdec]
  · decide

/-- C2 witness: the theorem applied to the two-attachment response of the
claim, at identifier 7. -/
theorem c2_witness :
    process_mesa (.response 200 (some ⟨[⟨some "OTHER", some "x"⟩,
      ⟨some "ACTA", some "Zm9v"⟩]⟩)) 7 = some (actaFilename 7, [102, 111, 111]) :=
  c2_extraction_and_persistence.1 ⟨[⟨some "OTHER", some "x"⟩,
      ⟨some "ACTA", some "Zm9v"⟩]⟩ [⟨some "OTHER", some "x"⟩] []
    ⟨some "ACTA", some "Zm9v"⟩ "Zm9v" [102, 111, 111] 7 rfl (by decide)
    rfl rfl (by decide) (by decide)

/-- C3: whenever the record source succeeds, the returned list is a
permutation of the identifiers of exactly the rows whose Descripcion is
`"PRESIDENTE"` with already-downloaded identifiers removed; in particular,
for rows `[{PRESIDENTE, 1}, {DIPUTADO, 2}]` and an empty directory it
returns `[1]`. -/
theorem c3_filtered_permutation :
    (∀ (rows : List Row) (dir : List String) (shuffle : List Int → List Int),
      (∀ l, (shuffle l).Perm l) →
      ∀ (downloaded : List Int) (l : List Int),
        parseDownloaded dir = some downloaded →
        load_mesa_codes_from_csv (.ok rows) dir shuffle = .ok l →
        l.Perm (pendingBeforeShuffle rows downloaded)) ∧
    (∀ shuffle : List Int → List Int, (∀ l, (shuffle l).Perm l) →
      load_mesa_codes_from_csv (.ok [⟨"PRESIDENTE", 1⟩, ⟨"DIPUTADO", 2⟩]) []
        shuffle = .ok [1]) := by
  constructor
  · intro rows dir shuffle hs downloaded l hd hload
    simp only [load_mesa_codes_from_csv, hd, Except.ok.injEq] at hload
    rw [← hload]
    exact hs _
  · intro shuffle hs
    have h1 : shuffle [1] = [1] := List.perm_singleton.mp (hs [1])
    show Except.ok (shuffle [1]) = Except.ok [1]
    rw [h1]

/-- C3 witness: instantiated at the identity shuffle on the two-row dataset
of the claim. -/
theorem c3_witness :
    load_mesa_codes_from_csv (.ok [⟨"PRESIDENTE", 1⟩, ⟨"DIPUTADO", 2⟩]) [] id
      = .ok [1] ∧
    ([1] : List Int).Perm (pendingBeforeShuffle
      [⟨"PRESIDENTE", 1⟩, ⟨"DIPUTADO", 2⟩] []) :=
  ⟨c3_filtered_permutation.2 id (fun l => List.Perm.refl l),
   c3_filtered_permutation.1 [⟨"PRESIDENTE", 1⟩, ⟨"DIPUTADO", 2⟩] [] id
     (fun l => List.Perm.refl l) [] [1] (by decide) (by decide)⟩

/-- C5: `fetch_mesa_data` yields the failure signal `None` on every non-200
status and on every transport-level exception; as a total Lean function of
the network event it propagates no exception to its caller. -/
theorem c5_fetch_failure_signals :
    (∀ (status : Nat) (body : Option MesaData), status ≠ 200 →
      fetch_mesa_data (.response status body) = none) ∧
    fetch_mesa_data .transportError = none := by
  constructor
  · intro status body h
    simp [fetch_mesa_data, h]
  · rfl

/-- C5 witness: a 404 response and a transport fault both yield `None`. -/
theorem c5_witness :
    fetch_mesa_data (.response 404 (some ⟨[]⟩)) = none ∧
    fetch_mesa_data .transportError = none :=
  ⟨c5_fetch_failure_signals.1 404 (some ⟨[]⟩) (by decide),
   c5_fetch_failure_signals.2⟩

/-- C4: whenever `main` reaches the dispatch phase, the reported summary has
`attempted` equal to the size of the loaded pending set and `succeeded`
equal to the number of pipelines that returned success; in particular a
batch of 10 identifiers of which exactly 7 succeed reports `10` and `7`. -/
theorem c4_summary_accuracy :
    (∀ (csv : Except Unit (List Row)) (dir : List String)
        (shuffle : List Int → List Int) (pipeline : Int → TaskResult)
        (codes : List Int) (a s : Nat),
      main csv dir shuffle pipeline = .dispatched codes a s →
      load_mesa_codes_from_csv csv dir shuffle = .ok codes ∧
      a = codes.length ∧
      s = codes.countP (fun c => decide (pipeline c = .ok true))) ∧
    (∀ (codes : List Int) (pipeline : Int → TaskResult),
      codes.length = 10 →
      codes.countP (fun c => decide (pipeline c = .ok true)) = 7 →
      (runBatch pipeline codes).length = 10 ∧
      success_count (runBatch pipeline codes) = 7) := by
  constructor
  · intro csv dir shuffle pipeline codes a s h
    cases hl : load_mesa_codes_from_csv csv dir shuffle with
    | error e => simp [main, hl] at h
    | ok lst =>
        cases lst with
        | nil => simp [main, hl] at h
        | cons c cs =>
            simp only [main, hl] at h
            injection h with h1 h2 h3
            subst h1
            refine ⟨rfl, h2.symm, ?_⟩
            rw [← h3, success_count, runBatch, List.countP_map]
            rfl
  · intro codes pipeline h10 h7
    constructor
    · rw [runBatch, List.length_map, h10]
    · rw [success_count, runBatch, List.countP_map]
      exact h7

/-- C4 witness: a batch of ten identifiers of which the first seven succeed,
the eighth raises and the last two fail. -/
theorem c4_witness :
    (runBatch (fun c => if c ≤ 7 then TaskResult.ok true
        else if c = 8 then .exc else .ok false)
      [1, 2, 3, 4, 5, 6, 7, 8, 9, 10]).length = 10 ∧
    success_count (runBatch (fun c => if c ≤ 7 then TaskResult.ok true
        else if c = 8 then .exc else .ok false)
      [1, 2, 3, 4, 5, 6, 7, 8, 9, 10]) = 7 :=
  c4_summary_accuracy.2 [1, 2, 3, 4, 5, 6, 7, 8, 9, 10]
    (fun c => if c ≤ 7 then TaskResult.ok true
      else if c = 8 then .exc else .ok false) (by decide) (by decide)

/-- C6: a failure inside one identifier's pipeline, including an unexpected
exception, is captured as that task's own result value: the batch still has
one terminal result per identifier, every identifier other than the failing
one gets exactly the result its own pipeline produces, and the summary
counts the faulty task as a failure while counting every sibling. -/
theorem c6_failure_isolation :
    ∀ (p q : Int → TaskResult) (c : Int), p c = .exc →
      (∀ x, x ≠ c → p x = q x) →
      ∀ codes : List Int,
        (runBatch p codes).length = codes.length ∧
        (∀ (i : Nat) (r : TaskResult) (x : Int),
          (runBatch p codes)[i]? = some r → codes[i]? = some x → x ≠ c →
          r = q x) ∧
        success_count (runBatch p codes) =
          codes.countP (fun x => decide (p x = .ok true)) := by
  intro p q c _ hpq codes
  refine ⟨by simp [runBatch], ?_, ?_⟩
  · intro i r x hr hx hne
    rw [runBatch, List.getElem?_map, hx] at hr
    simp at hr
    rw [← hr]
    exact hpq x hne
  · rw [success_count, runBatch, List.countP_map]
    rfl

/-- C6 witness: a three-identifier batch whose middle pipeline raises. -/
theorem c6_witness :
    (runBatch (fun x => if x = 5 then TaskResult.exc else .ok true)
      [3, 5, 9]).length = ([3, 5, 9] : List Int).length ∧
    (∀ (i : Nat) (r : TaskResult) (x : Int),
      (runBatch (fun x => if x = 5 then TaskResult.exc else .ok true)
        [3, 5, 9])[i]? = some r →
      ([3, 5, 9] : List Int)[i]? = some x → x ≠ 5 →
      r = (fun _ => TaskResult.ok true) x) ∧
    success_count (runBatch (fun x => if x = 5 then TaskResult.exc else .ok true)
      [3, 5, 9]) =
      ([3, 5, 9] : List Int).countP
        (fun x => decide ((if x = 5 then TaskResult.exc else .ok true) = .ok true)) :=
  c6_failure_isolation (fun x => if x = 5 then TaskResult.exc else .ok true)
    (fun _ => TaskResult.ok true) 5 (by decide) (fun x hx => by simp [hx]) [3, 5, 9]

/-- C7 counterexample: an unreadable dataset does not produce an empty
pending sequence; the exception propagates out of
`load_mesa_codes_from_csv` and `main` aborts. -/
theorem c7_counterexample :
    load_mesa_codes_from_csv (.error ()) [] id = .error .datasetUnreadable ∧
    main (.error ()) [] id (fun _ => .ok true) = .aborted .datasetUnreadable :=
  ⟨rfl, rfl⟩

/-- C7 as amended: when the dataset is readable and the directory scan
succeeds, a category filter matching zero rows yields the empty pending
sequence and `main` treats it as nothing to do; an unreadable dataset
instead propagates its exception and aborts the run. -/
theorem c7_empty_filter_nothing_to_do :
    (∀ (rows : List Row) (dir : List String) (shuffle : List Int → List Int)
        (pipeline : Int → TaskResult) (downloaded : List Int),
      (∀ l, (shuffle l).Perm l) →
      parseDownloaded dir = some downloaded →
      rows.filter (fun r => r.descripcion = "PRESIDENTE") = [] →
      load_mesa_codes_from_csv (.ok rows) dir shuffle = .ok [] ∧
      main (.ok rows) dir shuffle pipeline = .nothingToDo) ∧
    (∀ (dir : List String) (shuffle : List Int → List Int)
        (pipeline : Int → TaskResult),
      main (.error ()) dir shuffle pipeline = .aborted .datasetUnreadable) := by
  constructor
  · intro rows dir shuffle pipeline downloaded hs hd hfilter
    have hload : load_mesa_codes_from_csv (.ok rows) dir shuffle = .ok [] := by
      simp only [load_mesa_codes_from_csv, hd, hfilter, List.map_nil,
        List.filter_nil, Except.ok.injEq]
      exact (hs []).eq_nil
    exact ⟨hload, by simp [main, hload]⟩
  · intro dir shuffle pipeline
    rfl

/-- C7 witness: a dataset whose only row is DIPUTADO yields no work. -/
theorem c7_witness :
    load_mesa_codes_from_csv (.ok [⟨"DIPUTADO", 2⟩]) [] id = .ok [] ∧
    main (.ok [⟨"DIPUTADO", 2⟩]) [] id (fun _ => .ok true) = .nothingToDo :=
  c7_empty_filter_nothing_to_do.1 [⟨"DIPUTADO", 2⟩] [] id (fun _ => .ok true)
    [] (fun l => List.Perm.refl l) (by decide) (by decide)

/-- C9: one filename whose portion before the first `.` is not a decimal
integer makes `load_mesa_codes_from_csv` raise `ValueError`, so the run
aborts before any identifier is dispatched; in particular `notes.txt` does
not parse and aborts the run. -/
theorem c9_nonnumeric_filename_aborts :
    (∀ (rows : List Row) (dir : List String) (shuffle : List Int → List Int)
        (pipeline : Int → TaskResult) (f : String),
      f ∈ dir → parseFilename f = none →
      load_mesa_codes_from_csv (.ok rows) dir shuffle = .error .valueError ∧
      main (.ok rows) dir shuffle pipeline = .aborted .valueError) ∧
    parseFilename "notes.txt" = none ∧
    main (.ok [⟨"PRESIDENTE", 1⟩]) ["notes.txt"] id (fun _ => .ok true) =
      .aborted .valueError := by
  constructor
  · intro rows dir shuffle pipeline f hf hn
    have hd : parseDownloaded dir = none := parseDownloaded_eq_none dir f hf hn
    have hload : load_mesa_codes_from_csv (.ok rows) dir shuffle =
        .error .valueError := by
      simp [load_mesa_codes_from_csv, hd]
    exact ⟨hload, by simp [main, hload]⟩
  · exact ⟨by decide, by decide⟩

/-- C9 witness: the directory listing `["notes.txt"]` aborts the run. -/
theorem c9_witness :
    load_mesa_codes_from_csv (.ok [⟨"PRESIDENTE", 1⟩]) ["notes.txt"] id =
      .error .valueError ∧
    main (.ok [⟨"PRESIDENTE", 1⟩]) ["notes.txt"] id (fun _ => .ok true) =
      .aborted .valueError :=
  c9_nonnumeric_filename_aborts.1 [⟨"PRESIDENTE", 1⟩] ["notes.txt"] id
    (fun _ => .ok true) "notes.txt" (by decide) (by decide)

/-- C10: the record source does not deduplicate within a run: a dataset with
two PRESIDENTE rows sharing CodigoMesa 7 and an empty output directory
yields a pending list containing 7 twice, and `main` dispatches that list
unchanged, so the identifier is processed twice in one run. -/
theorem c10_duplicates_dispatched_twice :
    ∀ shuffle : List Int → List Int, (∀ l, (shuffle l).Perm l) →
      ∀ pipeline : Int → TaskResult, ∃ l : List Int,
        load_mesa_codes_from_csv
          (.ok [⟨"PRESIDENTE", 7⟩, ⟨"PRESIDENTE", 7⟩]) [] shuffle = .ok l ∧
        l.count 7 = 2 ∧
        main (.ok [⟨"PRESIDENTE", 7⟩, ⟨"PRESIDENTE", 7⟩]) [] shuffle pipeline =
          .dispatched l l.length (success_count (runBatch pipeline l)) := by
  intro shuffle hs pipeline
  refine ⟨shuffle [7, 7], rfl, ?_, ?_⟩
  · rw [(hs [7, 7]).count_eq 7]
    decide
  · have hload : load_mesa_codes_from_csv
        (.ok [⟨"PRESIDENTE", 7⟩, ⟨"PRESIDENTE", 7⟩]) [] shuffle =
        .ok (shuffle [7, 7]) := rfl
    have hperm := hs [7, 7]
    cases hsh : shuffle [7, 7] with
    | nil =>
        rw [hsh] at hperm
        have := hperm.length_eq
        simp at this
    | cons c cs =>
        rw [hsh] at hload
        simp [main, hload]

/-- C10 witness: with the identity shuffle the pending list is `[7, 7]`. -/
theorem c10_witness :
    ∃ l : List Int,
      load_mesa_codes_from_csv
        (.ok [⟨"PRESIDENTE", 7⟩, ⟨"PRESIDENTE", 7⟩]) [] id = .ok l ∧
      l.count 7 = 2 ∧
      main (.ok [⟨"PRESIDENTE", 7⟩, ⟨"PRESIDENTE", 7⟩]) [] id
          (fun _ => TaskResult.ok true) =
        .dispatched l l.length
          (success_count (runBatch (fun _ => TaskResult.ok true) l)) :=
  c10_duplicates_dispatched_twice id (fun l => List.Perm.refl l)
    (fun _ => TaskResult.ok true)

/-- C8: in every reachable scheduler state at most `semaphore_limit = 10`
tasks occupy the active fetch/extract/persist phase, and a task only ever
becomes done from the sleeping phase, i.e. after the post-pipeline
`asyncio.sleep(0.5)` pause taken while still holding its slot. -/
theorem c8_bounded_concurrency :
    (∀ s : SemState, SemReachable s → s.countP isActive ≤ semaphore_limit) ∧
    (∀ (s t : SemState) (i : Nat), SemStep s t → t[i]? = some Phase.done →
      s[i]? = some Phase.done ∨ s[i]? = some Phase.sleeping) ∧
    semaphore_limit = 10 ∧ request_delay = 1 / 2 := by
  refine ⟨?_, ?_, rfl, rfl⟩
  · intro s hr
    calc s.countP isActive
        ≤ s.countP holdsSlot :=
          List.countP_mono_left
            (fun a _ ha => by cases a <;> simp_all [isActive, holdsSlot])
      _ ≤ semaphore_limit := holders_le_of_reachable s hr
  · intro s t i hstep hdone
    cases hstep with
    | acquire j hp hlt =>
        by_cases hij : j = i
        · subst hij
          rw [List.getElem?_set_self', hp] at hdone
          simp at hdone
        · rw [List.getElem?_set_ne hij] at hdone
          exact .inl hdone
    | finish j hp =>
        by_cases hij : j = i
        · subst hij
          rw [List.getElem?_set_self', hp] at hdone
          simp at hdone
        · rw [List.getElem?_set_ne hij] at hdone
          exact .inl hdone
    | release j hp =>
        by_cases hij : j = i
        · subst hij
          exact .inr hp
        · rw [List.getElem?_set_ne hij] at hdone
          exact .inl hdone

/-- C8 witness: the bound at the initial five-task state, and the
sleeping-before-done rule at a one-task release step. -/
theorem c8_witness :
    (List.replicate 5 Phase.pending).countP isActive ≤ semaphore_limit ∧
    ([Phase.sleeping][0]? = some Phase.done ∨
      [Phase.sleeping][0]? = some Phase.sleeping) :=
  ⟨c8_bounded_concurrency.1 (List.replicate 5 Phase.pending) (SemReachable.init 5),
   c8_bounded_concurrency.2.1 [Phase.sleeping] [Phase.done] 0
     (SemStep.release [Phase.sleeping] 0 (by decide)) (by decide)⟩

end ProcesarActas
